import Mathlib

/-!
Shallow embedding of the event store of `src/script.js` (Eventfloww).

The repository is a single-page events application whose only stateful core
is a global array `events` mirrored to the browser's local storage under the
single key "events".  We embed that core:

* `Comment` / `Event` mirror the record shapes of the seed literals
  (script.js lines 193-249).  A comment's `date` field is produced in the
  source by `new Date().toISOString()` and is only ever consumed through
  `new Date(c.date)` subtraction, i.e. numerically; we therefore carry it as
  the epoch-milliseconds reading of that ISO timestamp (a `Nat`).
* `Json` is the abstract syntax of the JSON values exchanged with
  `localStorage` via `JSON.stringify` / `JSON.parse`; `encodeEvents` /
  `decodeEvents` are the (de)serialization of the collection.
* `Store` packages the in-memory collection together with the persisted
  mirror (the value under the "events" key, `none` when the key is absent).
* `handleVote`, `addComment`, `submitCreateEvent`, `loadRanking`,
  `renderCommentsView`, `findByID`, `hydrate` are the operations, translated
  from script.js.  DOM access is rendered as the values the handlers surface
  (returned counts, error messages, rendered lists); `Date.now()` /
  `new Date()` / `Math.random()` become explicit `now` / `rand` parameters
  supplied by the environment.
-/

namespace Eventfloww

/-- A comment record: `{ author, text, date }` (script.js lines 203-204, 226,
488-492).  `date` is the creation instant in epoch milliseconds (the source
stores `new Date().toISOString()` and compares dates numerically via
`new Date(b.date) - new Date(a.date)`). -/
structure Comment where
  author : String
  text : String
  date : Nat
deriving DecidableEq, Repr

/-- An event record, with the fields of the seed literals and of the object
built by the create-event submit handler (script.js lines 194-205, 746-755). -/
structure Event where
  id : String
  title : String
  description : String
  imageUrl : String
  votes : Nat
  category : String
  date : String
  comments : List Comment
deriving DecidableEq, Repr

/-- Abstract syntax of the JSON values stored under the "events" key.
`JSON.stringify` / `JSON.parse` are a bijection between these values and
their textual serializations (field order preserved), so we work at the level
of this AST. -/
inductive Json where
  | str : String → Json
  | num : Nat → Json
  | arr : List Json → Json
  | obj : List (String × Json) → Json

/-- JSON encoding of a comment, field order as in the source object literal. -/
def encodeComment (c : Comment) : Json :=
  .obj [("author", .str c.author), ("text", .str c.text), ("date", .num c.date)]

/-- JSON decoding of a comment (inverse of `JSON.stringify` on the comment
records this program writes). -/
def decodeComment : Json → Option Comment
  | .obj [("author", .str a), ("text", .str t), ("date", .num d)] =>
      some { author := a, text := t, date := d }
  | _ => none

/-- JSON encoding of an event, field order as in the source object literal. -/
def encodeEvent (e : Event) : Json :=
  .obj [("id", .str e.id), ("title", .str e.title),
        ("description", .str e.description), ("imageUrl", .str e.imageUrl),
        ("votes", .num e.votes), ("category", .str e.category),
        ("date", .str e.date), ("comments", .arr (e.comments.map encodeComment))]

/-- Decode a JSON array of comments elementwise. -/
def decodeComments : List Json → Option (List Comment)
  | [] => some []
  | j :: js =>
      match decodeComment j, decodeComments js with
      | some c, some cs => some (c :: cs)
      | _, _ => none

/-- JSON decoding of an event record. -/
def decodeEvent : Json → Option Event
  | .obj [("id", .str i), ("title", .str t), ("description", .str d),
          ("imageUrl", .str u), ("votes", .num v), ("category", .str c),
          ("date", .str dt), ("comments", .arr cs)] =>
      match decodeComments cs with
      | some cl => some { id := i, title := t, description := d, imageUrl := u,
                          votes := v, category := c, date := dt, comments := cl }
      | none => none
  | _ => none

/-- Decode a JSON array of events elementwise. -/
def decodeEventList : List Json → Option (List Event)
  | [] => some []
  | j :: js =>
      match decodeEvent j, decodeEventList js with
      | some e, some es => some (e :: es)
      | _, _ => none

/-- JSON encoding of the whole collection: the value written by
`localStorage.setItem('events', JSON.stringify(events))` (script.js line 270). -/
def encodeEvents (es : List Event) : Json :=
  .arr (es.map encodeEvent)

/-- JSON decoding of the whole collection: `JSON.parse(storedEvents)`
(script.js line 170); `none` models a parse failure. -/
def decodeEvents : Json → Option (List Event)
  | .arr js => decodeEventList js
  | _ => none

/-- First seed event (script.js lines 194-206).  Comment dates are the
epoch-millisecond readings of the ISO strings in the source. -/
def seedEvent1 : Event :=
  { id := "1",
    title := "Conferencia de Inteligencia Artificial 2025",
    description := "Explorando los últimos avances en inteligencia artificial, machine learning y el futuro de la automatización. Únete a expertos de la industria.",
    imageUrl := "PROYECTO/Imagenes/Conferencia_ai.jpg",
    votes := 120,
    category := "tecnologia",
    date := "2025-07-15",
    comments := [
      { author := "Juan Perez", text := "¡Muy emocionado por esta conferencia!", date := 1747562400000 },
      { author := "Maria Gomez", text := "Espero que haya sesiones sobre IA ética.", date := 1747567800000 } ] }

/-- Second seed event (script.js lines 207-216). -/
def seedEvent2 : Event :=
  { id := "2",
    title := "Festival de Música en el Parque",
    description := "Un fin de semana lleno de los mejores artistas de la escena independiente local e internacional. Habrá food trucks y actividades recreativas.",
    imageUrl := "PROYECTO/Imagenes/Fiesta.jpeg",
    votes := 85,
    category := "musica",
    date := "2025-08-22",
    comments := [] }

/-- Third seed event (script.js lines 217-228). -/
def seedEvent3 : Event :=
  { id := "3",
    title := "Exposición de Arte Moderno: \"Formas del Silencio\"",
    description := "Una colección curada de obras de arte contemporáneo de artistas emergentes. Explora la expresión a través de diversas técnicas y medios.",
    imageUrl := "PROYECTO/Imagenes/Arte.jpg",
    votes := 95,
    category := "arte",
    date := "2025-09-05",
    comments := [
      { author := "Carlos Lopez", text := "¡Impresionante exhibición! Me encantó la sección de escultura.", date := 1747494000000 } ] }

/-- Fourth seed event (script.js lines 229-238). -/
def seedEvent4 : Event :=
  { id := "4",
    title := "Carrera 10KM Ciudad Saludable",
    description := "Únete a la carrera anual por las calles de la ciudad, promoviendo la salud y el bienestar. Abierta a corredores de todos los niveles.",
    imageUrl := "PROYECTO/Imagenes/10KM.webp",
    votes := 60,
    category := "deporte",
    date := "2025-10-10",
    comments := [] }

/-- Fifth seed event (script.js lines 239-248). -/
def seedEvent5 : Event :=
  { id := "5",
    title := "Taller de Fotografía Urbana",
    description := "Aprende técnicas de fotografía callejera con un fotógrafo profesional. Exploraremos los rincones más fotogénicos de la ciudad.",
    imageUrl := "PROYECTO/Imagenes/FotografiaUrbana.jpg",
    votes := 75,
    category := "arte",
    date := "2025-07-20",
    comments := [] }

/-- The seed collection (script.js lines 193-249), in source order. -/
def initialEvents : List Event :=
  [seedEvent1, seedEvent2, seedEvent3, seedEvent4, seedEvent5]

/-- The store state: the global in-memory array `events` together with the
persisted mirror, i.e. the JSON value under the local-storage key "events"
(`none` when the key is absent). -/
structure Store where
  events : List Event
  storage : Option Json

/-- `saveEventsToLocalStorage` (script.js lines 269-271): overwrite the
mirror wholesale with the serialization of the in-memory collection. -/
def saveEventsToLocalStorage (s : Store) : Store :=
  { s with storage := some (encodeEvents s.events) }

/-- `events.find(e => e.id === eventId)` — the linear-scan lookup used by
`handleVote` (line 380) and `loadEventDetail` (line 412): first match or a
not-found signal. -/
def findByID (eventId : String) (es : List Event) : Option Event :=
  es.find? (fun e => e.id == eventId)

/-- In-place `event.votes++` on the object returned by `find`: increment the
votes of the first event whose id matches, leave everything else untouched. -/
def voteFirst (eventId : String) : List Event → List Event
  | [] => []
  | e :: es =>
      if e.id == eventId then { e with votes := e.votes + 1 } :: es
      else e :: voteFirst eventId es

/-- `handleVote` (script.js lines 379-404).  If the id is found, the matching
event's `votes` is incremented, the collection is saved to local storage and
the new count is surfaced (console log and the `.vote-count` spans are set to
`event.votes`); we return that surfaced count.  If the id is not found the
handler falls through: no mutation, no save, nothing surfaced (`none`). -/
def handleVote (eventId : String) (s : Store) : Store × Option Nat :=
  match findByID eventId s.events with
  | none => (s, none)
  | some ev =>
      let es := voteFirst eventId s.events
      ({ events := es, storage := some (encodeEvents es) }, some (ev.votes + 1))

/-- JS `value.trim()`: strip leading and trailing whitespace.  Defined
directly on the character list so it computes by plain reduction. -/
def jsTrim (s : String) : String :=
  String.mk (((s.data.dropWhile Char.isWhitespace).reverse.dropWhile
    Char.isWhitespace).reverse)

/-- In-place `event.comments.push(newComment)` on the object returned by
`find`: append a comment to the first event whose id matches. -/
def pushCommentFirst (eventId : String) (c : Comment) : List Event → List Event
  | [] => []
  | e :: es =>
      if e.id == eventId then { e with comments := e.comments ++ [c] } :: es
      else e :: pushCommentFirst eventId c es

/-- Outcome surfaced by the add-comment interaction. -/
inductive CommentOutcome where
  | notFoundView
  | validationError (message : String)
  | added (comments : List Comment)
deriving DecidableEq, Repr

/-- The add-comment interaction: `loadEventDetail` (script.js lines 410-417)
looks the event up and, when it is absent, renders the "Evento no encontrado"
view — the comment form never exists, so no append can happen.  When the
event is found, the comment form's submit handler (lines 478-504) trims
`author` and `text`; if either is empty it shows a validation error and
changes nothing; otherwise it builds `{ author, text, date: now }` with `now`
the current instant assigned by the handler (`new Date().toISOString()`,
never client-supplied), pushes it onto the event's comment array, saves to
local storage, and re-renders the updated comment list. -/
def addComment (eventId author text : String) (now : Nat) (s : Store) :
    Store × CommentOutcome :=
  match findByID eventId s.events with
  | none => (s, .notFoundView)
  | some ev =>
      let a := jsTrim author
      let t := jsTrim text
      if a == "" || t == "" then
        (s, .validationError "Por favor, completa tu nombre y comentario.")
      else
        let c : Comment := { author := a, text := t, date := now }
        let es := pushCommentFirst eventId c s.events
        ({ events := es, storage := some (encodeEvents es) },
         .added (ev.comments ++ [c]))

/-- Insert a comment into a date-descending list, keeping it before equal
dates it originally preceded: the insertion step of the stable sort
`[...comments].sort((a, b) => new Date(b.date) - new Date(a.date))`
(script.js line 522; `Array.prototype.sort` is stable). -/
def insertCommentDesc (c : Comment) : List Comment → List Comment
  | [] => [c]
  | d :: ds =>
      if d.date > c.date then d :: insertCommentDesc c ds
      else c :: d :: ds

/-- `renderComments` (script.js lines 512-529): the displayed order of an
event's comments — a stable sort of a copy of the array, most recent first.
The stored array is not mutated (the sort runs on `[...comments]`). -/
def renderCommentsView : List Comment → List Comment
  | [] => []
  | c :: cs => insertCommentDesc c (renderCommentsView cs)

/-- Insert an event into a votes-descending list, keeping it before equal
vote counts it originally preceded: the insertion step of the stable sort
`[...events].sort((a, b) => b.votes - a.votes)` (script.js line 541). -/
def insertEventDesc (e : Event) : List Event → List Event
  | [] => [e]
  | d :: ds =>
      if d.votes > e.votes then d :: insertEventDesc e ds
      else e :: d :: ds

/-- The ranking order computed by `loadRanking` (script.js lines 536-541):
a stable sort of a copy of the collection by votes, descending. -/
def rankedSort : List Event → List Event
  | [] => []
  | e :: es => insertEventDesc e (rankedSort es)

/-- `loadRanking` (script.js lines 536-572): renders the collection sorted by
votes descending; the sort runs on the copy `[...events]`, so the store is
returned unchanged alongside the rendered order. -/
def loadRanking (s : Store) : Store × List Event :=
  (s, rankedSort s.events)

/-- A `validationRules` object as passed to `validateField` (script.js lines
688-692 and 721-725): an absent property is `none` / `false`. -/
structure FieldRules where
  required : Bool := false
  minLength : Option Nat := none
  maxLength : Option Nat := none
deriving DecidableEq, Repr

/-- `validateField` (script.js lines 625-681) on the create-event fields:
trims the value, then checks required / minLength / maxLength in that order,
returning validity and the message shown in the field's error element.  The
remaining branches of the source function are the browser-native
`checkValidity()` checks for email/url/date widgets and the empty-`SELECT`
check; for the create-event form those are the date widget's well-formedness,
the optional image URL's format (both guaranteed by the widget for the values
it produces) and a duplicate of the `required` check on the category select,
so they add no condition beyond the ones modelled. -/
def validateField (value : String) (r : FieldRules) : Bool × String :=
  let v := jsTrim value
  if r.required && v == "" then
    (false, "Este campo es obligatorio.")
  else if (match r.minLength with
           | some m => decide (v.length < m)
           | none => false) then
    (false, match r.minLength with
            | some m => s!"Debe tener al menos {m} caracteres."
            | none => "")
  else if (match r.maxLength with
           | some m => decide (v.length > m)
           | none => false) then
    (false, match r.maxLength with
            | some m => s!"No debe exceder {m} caracteres."
            | none => "")
  else
    (true, "")

/-- The raw values of the create-event form's five inputs. -/
structure CreateForm where
  title : String
  description : String
  date : String
  imageUrl : String
  category : String
deriving DecidableEq, Repr

/-- The `fields` array of the create-event submit handler (script.js lines
720-726): name, raw value and validation rules, in source order. -/
def createFields (f : CreateForm) : List (String × String × FieldRules) :=
  [("title", f.title, { required := true, minLength := some 5, maxLength := some 100 }),
   ("description", f.description, { required := true, minLength := some 20 }),
   ("date", f.date, { required := true }),
   ("imageUrl", f.imageUrl, {}),
   ("category", f.category, { required := true })]

/-- The per-field error report of one submit: the handler's `forEach` runs
`validateField` on every field (it never stops early), lighting the field's
own error element; this collects the fields that failed with their
messages. -/
def createErrors (f : CreateForm) : List (String × String) :=
  (createFields f).filterMap fun fv =>
    let r := validateField fv.2.1 fv.2.2
    if r.1 then none else some (fv.1, r.2)

/-- The create-event submit handler (script.js lines 713-777).  Every field
is validated (each lighting its own error message) and its trimmed value is
collected; if all pass, an empty trimmed `imageUrl` is replaced by the
placeholder path, a fresh id `event-<Date.now()>-<random fragment>` is
generated, the new event starts with `votes = 0` and `comments = []`, is
pushed onto the collection, the collection is saved to local storage and the
new event is surfaced.  Otherwise the state is untouched and the per-field
errors are reported. -/
def submitCreateEvent (f : CreateForm) (now : Nat) (rand : String) (s : Store) :
    Store × Except (List (String × String)) Event :=
  match createErrors f with
  | [] =>
      let imageUrl :=
        if jsTrim f.imageUrl == "" then "public/images/event-placeholder.jpg"
        else jsTrim f.imageUrl
      let newEvent : Event :=
        { id := s!"event-{now}-{rand}",
          title := jsTrim f.title,
          description := jsTrim f.description,
          imageUrl := imageUrl,
          votes := 0,
          category := jsTrim f.category,
          date := jsTrim f.date,
          comments := [] }
      let es := s.events ++ [newEvent]
      ({ events := es, storage := some (encodeEvents es) }, .ok newEvent)
  | errs => (s, .error errs)

/-- The hydration step of the `DOMContentLoaded` handler (script.js lines
165-175): if the "events" key is present its JSON is parsed into the
collection (a parse failure throws — modelled as `none`); otherwise the
collection keeps the seed literals and is immediately persisted. -/
def hydrate : Option Json → Option Store
  | some j => (decodeEvents j).map fun es => { events := es, storage := some j }
  | none =>
      some (saveEventsToLocalStorage { events := initialEvents, storage := none })

/-- `n` sequential clicks of a vote button for the same id: `handleVote`
iterated `n` times on the store. -/
def voteIter (eventId : String) : Nat → Store → Store
  | 0, s => s
  | n + 1, s => (handleVote eventId (voteIter eventId n s)).1

/-- The consistency invariant of spec §3: the persisted mirror holds exactly
the serialization of the in-memory collection. -/
def mirrorConsistent (s : Store) : Prop :=
  s.storage = some (encodeEvents s.events)

/-- A store freshly seeded and persisted: the state right after a first-visit
hydration (no "events" key yet). -/
def seedStore : Store :=
  { events := initialEvents, storage := some (encodeEvents initialEvents) }

/-- A create-event form whose every field passes validation (title length
between 5 and 100, description length at least 20, date and category
non-empty, image left empty). -/
def validForm : CreateForm :=
  { title := "Feria de Ciencias Abierta",
    description := "Una feria con demostraciones de ciencia para todas las edades.",
    date := "2025-11-20",
    imageUrl := "",
    category := "tecnologia" }

/-- The event `submitCreateEvent validForm 5 "r"` constructs. -/
def sampleCreated : Event :=
  { id := "event-5-r",
    title := "Feria de Ciencias Abierta",
    description := "Una feria con demostraciones de ciencia para todas las edades.",
    imageUrl := "public/images/event-placeholder.jpg",
    votes := 0,
    category := "tecnologia",
    date := "2025-11-20",
    comments := [] }

/-! ### Helper lemmas -/

theorem decodeComment_encodeComment (c : Comment) :
    decodeComment (encodeComment c) = some c := rfl

theorem decodeComments_map (cs : List Comment) :
    decodeComments (cs.map encodeComment) = some cs := by
  induction cs with
  | nil => rfl
  | cons c cs ih =>
      simp [List.map_cons, decodeComments, decodeComment_encodeComment, ih]

theorem decodeEvent_encodeEvent (e : Event) :
    decodeEvent (encodeEvent e) = some e := by
  simp [encodeEvent, decodeEvent, decodeComments_map]

theorem decodeEventList_map (es : List Event) :
    decodeEventList (es.map encodeEvent) = some es := by
  induction es with
  | nil => rfl
  | cons e es ih =>
      simp [List.map_cons, decodeEventList, decodeEvent_encodeEvent, ih]

theorem decodeEvents_encodeEvents (es : List Event) :
    decodeEvents (encodeEvents es) = some es := by
  simp [encodeEvents, decodeEvents, decodeEventList_map]

theorem findByID_of_mem (es : List Event) (E : Event)
    (h1 : (es.map Event.id).Nodup) (h2 : E ∈ es) :
    findByID E.id es = some E := by
  induction es with
  | nil => cases h2
  | cons e tl ih =>
      rw [List.map_cons, List.nodup_cons] at h1
      by_cases hb : e.id = E.id
      · have he : e = E := by
          rcases List.mem_cons.mp h2 with h | h
          · exact h.symm
          · exact absurd (hb ▸ List.mem_map_of_mem Event.id h) h1.1
        subst he
        simp [findByID, List.find?]
      · have hE : E ∈ tl := by
          rcases List.mem_cons.mp h2 with h | h
          · exact absurd (h ▸ rfl) hb
          · exact h
        have hbeq : (e.id == E.id) = false := by
          simpa using hb
        simpa [findByID, List.find?, hbeq] using ih h1.2 hE

theorem findByID_eq_none (es : List Event) (eventId : String)
    (h : ∀ e ∈ es, e.id ≠ eventId) :
    findByID eventId es = none := by
  rw [findByID, List.find?_eq_none]
  intro e he
  simpa using h e he

theorem voteFirst_map_id (eventId : String) (es : List Event) :
    (voteFirst eventId es).map Event.id = es.map Event.id := by
  induction es with
  | nil => rfl
  | cons e tl ih =>
      by_cases hb : e.id == eventId
      · simp [voteFirst, hb]
      · simp [voteFirst, hb, ih]

theorem findByID_voteFirst (es : List Event) (E : Event)
    (h1 : (es.map Event.id).Nodup) (h2 : E ∈ es) :
    findByID E.id (voteFirst E.id es) = some { E with votes := E.votes + 1 } := by
  induction es with
  | nil => cases h2
  | cons e tl ih =>
      rw [List.map_cons, List.nodup_cons] at h1
      by_cases hb : e.id = E.id
      · have he : e = E := by
          rcases List.mem_cons.mp h2 with h | h
          · exact h.symm
          · exact absurd (hb ▸ List.mem_map_of_mem Event.id h) h1.1
        subst he
        simp [voteFirst, findByID, List.find?]
      · have hE : E ∈ tl := by
          rcases List.mem_cons.mp h2 with h | h
          · exact absurd (h ▸ rfl) hb
          · exact h
        have hbeq : (e.id == E.id) = false := by
          simpa using hb
        simpa [voteFirst, findByID, List.find?, hbeq] using ih h1.2 hE

theorem voteIter_find (E : Event) (n : Nat) (s : Store)
    (h1 : (s.events.map Event.id).Nodup) (h2 : E ∈ s.events) :
    findByID E.id (voteIter E.id n s).events = some { E with votes := E.votes + n } ∧
    (voteIter E.id n s).events.map Event.id = s.events.map Event.id := by
  induction n with
  | zero =>
      refine ⟨?_, rfl⟩
      simpa using findByID_of_mem s.events E h1 h2
  | succ n ih =>
      obtain ⟨hf, hid⟩ := ih
      have h1' : ((voteIter E.id n s).events.map Event.id).Nodup := by
        rw [hid]; exact h1
      have hmem : { E with votes := E.votes + n } ∈ (voteIter E.id n s).events :=
        List.mem_of_find?_eq_some hf
      constructor
      · show findByID E.id (handleVote E.id (voteIter E.id n s)).1.events = _
        simp only [handleVote, hf]
        exact findByID_voteFirst (voteIter E.id n s).events { E with votes := E.votes + n }
          h1' hmem
      · show (handleVote E.id (voteIter E.id n s)).1.events.map Event.id = _
        simp only [handleVote, hf]
        rw [voteFirst_map_id]
        exact hid

theorem findByID_pushCommentFirst (es : List Event) (E : Event)
    (eventId : String) (c : Comment)
    (h : findByID eventId es = some E) :
    findByID eventId (pushCommentFirst eventId c es) =
      some { E with comments := E.comments ++ [c] } := by
  induction es with
  | nil => simp [findByID, List.find?] at h
  | cons e tl ih =>
      by_cases hb : e.id == eventId
      · have he : e = E := by simpa [findByID, List.find?, hb] using h
        subst he
        simp [pushCommentFirst, hb, findByID, List.find?]
      · have h' : findByID eventId tl = some E := by
          simpa [findByID, List.find?, hb] using h
        simpa [pushCommentFirst, hb, findByID, List.find?] using ih h'

theorem renderCommentsView_append_fresh (cs : List Comment) (c : Comment)
    (h : ∀ d ∈ cs, d.date < c.date) :
    renderCommentsView (cs ++ [c]) = c :: renderCommentsView cs := by
  induction cs with
  | nil => rfl
  | cons d ds ih =>
      have hd : d.date < c.date := h d (by simp)
      have ih' := ih fun x hx => h x (by simp [hx])
      rw [List.cons_append]
      show insertCommentDesc d (renderCommentsView (ds ++ [c])) = _
      rw [ih']
      simp only [insertCommentDesc, if_pos hd]
      rfl

theorem perm_insertEventDesc (e : Event) (l : List Event) :
    List.Perm (insertEventDesc e l) (e :: l) := by
  induction l with
  | nil => exact List.Perm.refl _
  | cons d ds ih =>
      by_cases hb : d.votes > e.votes
      · simp only [insertEventDesc, if_pos hb]
        exact (ih.cons d).trans (List.Perm.swap e d ds)
      · simp only [insertEventDesc, if_neg hb]
        exact List.Perm.refl _

theorem mem_insertEventDesc (x e : Event) (l : List Event) :
    x ∈ insertEventDesc e l ↔ x = e ∨ x ∈ l := by
  rw [(perm_insertEventDesc e l).mem_iff, List.mem_cons]

theorem pairwise_insertEventDesc (e : Event) (l : List Event)
    (h : l.Pairwise (fun a b => b.votes ≤ a.votes)) :
    (insertEventDesc e l).Pairwise (fun a b => b.votes ≤ a.votes) := by
  induction l with
  | nil => simp [insertEventDesc]
  | cons d ds ih =>
      rw [List.pairwise_cons] at h
      by_cases hb : d.votes > e.votes
      · simp only [insertEventDesc, if_pos hb]
        rw [List.pairwise_cons]
        refine ⟨?_, ih h.2⟩
        intro y hy
        rcases (mem_insertEventDesc y e ds).mp hy with rfl | hy'
        · exact Nat.le_of_lt hb
        · exact h.1 y hy'
      · simp only [insertEventDesc, if_neg hb]
        rw [List.pairwise_cons]
        refine ⟨?_, ?_⟩
        · intro y hy
          rcases List.mem_cons.mp hy with rfl | hy'
          · exact Nat.le_of_not_lt hb
          · exact Nat.le_trans (h.1 y hy') (Nat.le_of_not_lt hb)
        · rw [List.pairwise_cons]
          exact h

theorem pairwise_rankedSort (l : List Event) :
    (rankedSort l).Pairwise (fun a b => b.votes ≤ a.votes) := by
  induction l with
  | nil => simp [rankedSort]
  | cons e es ih => exact pairwise_insertEventDesc e (rankedSort es) ih

theorem perm_rankedSort (l : List Event) : List.Perm l (rankedSort l) := by
  induction l with
  | nil => exact List.Perm.refl _
  | cons e es ih =>
      show List.Perm (e :: es) (insertEventDesc e (rankedSort es))
      exact (ih.cons e).trans (perm_insertEventDesc e (rankedSort es)).symm

theorem filter_insertEventDesc (e : Event) (l : List Event) (v : Nat) :
    (insertEventDesc e l).filter (fun x => x.votes == v) =
      if e.votes == v then e :: l.filter (fun x => x.votes == v)
      else l.filter (fun x => x.votes == v) := by
  induction l with
  | nil =>
      by_cases hv : e.votes == v <;> simp [insertEventDesc, List.filter, hv]
  | cons d ds ih =>
      by_cases hb : d.votes > e.votes
      · simp only [insertEventDesc, if_pos hb]
        by_cases hv : e.votes == v
        · have hev : e.votes = v := by simpa using hv
          have hdv : (d.votes == v) = false := by
            simp only [beq_eq_false_iff_ne]
            omega
          simp [List.filter_cons, hdv, hv, ih]
        · simp [List.filter_cons, hv, ih]
      · simp only [insertEventDesc, if_neg hb]
        by_cases hv : e.votes == v <;> simp [List.filter_cons, hv]

theorem filter_rankedSort (l : List Event) (v : Nat) :
    (rankedSort l).filter (fun x => x.votes == v) =
      l.filter (fun x => x.votes == v) := by
  induction l with
  | nil => rfl
  | cons e es ih =>
      show (insertEventDesc e (rankedSort es)).filter _ = _
      rw [filter_insertEventDesc]
      by_cases hv : e.votes == v <;> simp [List.filter_cons, hv, ih]

/-! ### Claim theorems -/

/-- C1: if the persisted mirror agrees with the in-memory collection before
an operation, then immediately after each mutating operation — vote
increment, comment append, event creation — the persisted mirror (the
serialized collection under the single "events" key) again equals the
in-memory collection.  The mutating branches re-serialize the collection
unconditionally; the non-mutating branches leave both sides untouched. -/
theorem vote_comment_create_keep_mirror_consistent
    (s : Store) (voteId cId author text : String) (cnow : Nat)
    (f : CreateForm) (enow : Nat) (rand : String)
    (h : mirrorConsistent s) :
    mirrorConsistent (handleVote voteId s).1 ∧
    mirrorConsistent (addComment cId author text cnow s).1 ∧
    mirrorConsistent (submitCreateEvent f enow rand s).1 := by
  refine ⟨?_, ?_, ?_⟩
  · cases hf : findByID voteId s.events with
    | none => simpa [handleVote, hf] using h
    | some ev => simp [handleVote, hf, mirrorConsistent]
  · cases hf : findByID cId s.events with
    | none => simpa [addComment, hf] using h
    | some ev =>
        by_cases ha : jsTrim author == ""
        · simpa [addComment, hf, ha] using h
        · by_cases ht : jsTrim text == ""
          · simpa [addComment, hf, ha, ht] using h
          · simp [addComment, hf, ha, ht, mirrorConsistent]
  · cases he : createErrors f with
    | nil => simp [submitCreateEvent, he, mirrorConsistent]
    | cons p ps => simpa [submitCreateEvent, he] using h

/-- Witness for C1 at a concrete input: the seeded, persisted store stays
mirror-consistent after a vote on "1", a comment on "1", and a valid
creation. -/
theorem vote_comment_create_keep_mirror_consistent_witness :
    mirrorConsistent seedStore ∧
    (mirrorConsistent (handleVote "1" seedStore).1 ∧
     mirrorConsistent (addComment "1" "Ann" "Hola a todos" 1750000000000 seedStore).1 ∧
     mirrorConsistent (submitCreateEvent validForm 5 "r" seedStore).1) :=
  ⟨rfl, vote_comment_create_keep_mirror_consistent seedStore "1" "1" "Ann" "Hola a todos"
    1750000000000 validForm 5 "r" rfl⟩

/-- C2: for an event `E` of a collection with pairwise-distinct ids, a vote
on `E.id` surfaces the new count `E.votes + 1`, persists the whole
collection, and after `n` sequential calls the stored event has exactly
`E.votes + n` votes, the `n+1`-st call surfacing `E.votes + n + 1` — each
call adds exactly 1, none skipped or doubled. -/
theorem vote_increments_votes_by_exactly_one
    (s : Store) (E : Event) (n : Nat)
    (h1 : (s.events.map Event.id).Nodup) (h2 : E ∈ s.events) :
    (handleVote E.id s).2 = some (E.votes + 1) ∧
    (handleVote E.id s).1.storage = some (encodeEvents (handleVote E.id s).1.events) ∧
    findByID E.id (voteIter E.id n s).events = some { E with votes := E.votes + n } ∧
    (handleVote E.id (voteIter E.id n s)).2 = some (E.votes + n + 1) := by
  have h0 := findByID_of_mem s.events E h1 h2
  have hit := voteIter_find E n s h1 h2
  refine ⟨?_, ?_, hit.1, ?_⟩
  · simp [handleVote, h0]
  · simp [handleVote, h0]
  · simp [handleVote, hit.1]

/-- Witness for C2 at a concrete input: three sequential votes on seed event
"1" (120 votes) surface 121 and leave the stored event at exactly 123. -/
theorem vote_increments_votes_by_exactly_one_witness :
    ((seedStore.events.map Event.id).Nodup ∧ seedEvent1 ∈ seedStore.events) ∧
    (handleVote seedEvent1.id seedStore).2 = some (seedEvent1.votes + 1) ∧
    findByID seedEvent1.id (voteIter seedEvent1.id 3 seedStore).events =
      some { seedEvent1 with votes := seedEvent1.votes + 3 } := by
  have h := vote_increments_votes_by_exactly_one seedStore seedEvent1 3 (by decide) (by decide)
  exact ⟨⟨by decide, by decide⟩, h.1, h.2.2.1⟩

/-- C3: on the comment form of an existing event, an `author` or `text` that
is empty after trimming yields the validation error and changes nothing;
when both are non-empty the store builds a comment dated `now` (the instant
assigned by the handler, never client-supplied), appends it at the end of
the event's comment sequence, persists the collection, and — the existing
comments being older than `now` — the new comment appears first in the
date-descending rendered view. -/
theorem addComment_validates_appends_and_renders_first
    (s : Store) (eventId author text : String) (now : Nat) (E : Event)
    (hE : findByID eventId s.events = some E)
    (hnow : ∀ c ∈ E.comments, c.date < now) :
    (jsTrim author = "" ∨ jsTrim text = "" →
      addComment eventId author text now s =
        (s, .validationError "Por favor, completa tu nombre y comentario.")) ∧
    (jsTrim author ≠ "" → jsTrim text ≠ "" →
      addComment eventId author text now s =
        ({ events := pushCommentFirst eventId
              { author := jsTrim author, text := jsTrim text, date := now } s.events,
           storage := some (encodeEvents (pushCommentFirst eventId
              { author := jsTrim author, text := jsTrim text, date := now } s.events)) },
         .added (E.comments ++ [{ author := jsTrim author, text := jsTrim text, date := now }])) ∧
      findByID eventId (addComment eventId author text now s).1.events =
        some { E with comments :=
          E.comments ++ [{ author := jsTrim author, text := jsTrim text, date := now }] } ∧
      renderCommentsView
          (E.comments ++ [{ author := jsTrim author, text := jsTrim text, date := now }]) =
        { author := jsTrim author, text := jsTrim text, date := now } ::
          renderCommentsView E.comments) := by
  constructor
  · intro hor
    rcases hor with ha | ht
    · simp [addComment, hE, ha]
    · simp [addComment, hE, ht]
  · intro ha ht
    have ha' : (jsTrim author == "") = false := by simpa using ha
    have ht' : (jsTrim text == "") = false := by simpa using ht
    refine ⟨?_, ?_, ?_⟩
    · simp [addComment, hE, ha', ht']
    · have heq : (addComment eventId author text now s).1.events =
          pushCommentFirst eventId
            { author := jsTrim author, text := jsTrim text, date := now } s.events := by
        simp [addComment, hE, ha', ht']
      rw [heq]
      exact findByID_pushCommentFirst s.events E eventId _ hE
    · exact renderCommentsView_append_fresh E.comments _ hnow

/-- Witness for C3 at concrete inputs on seed event "1": blank author fails,
blank text fails, `" Ann " / "Hi"` succeeds and the new comment renders
first. -/
theorem addComment_validates_appends_and_renders_first_witness :
    (findByID "1" seedStore.events = some seedEvent1 ∧
     (∀ c ∈ seedEvent1.comments, c.date < 1750000000000) ∧
     jsTrim " Ann " = "Ann") ∧
    addComment "1" "   " "Hi" 1750000000000 seedStore =
      (seedStore, .validationError "Por favor, completa tu nombre y comentario.") ∧
    addComment "1" "Ann" "" 1750000000000 seedStore =
      (seedStore, .validationError "Por favor, completa tu nombre y comentario.") ∧
    addComment "1" " Ann " "Hi" 1750000000000 seedStore =
      ({ events := pushCommentFirst "1"
            { author := jsTrim " Ann ", text := jsTrim "Hi", date := 1750000000000 }
            seedStore.events,
         storage := some (encodeEvents (pushCommentFirst "1"
            { author := jsTrim " Ann ", text := jsTrim "Hi", date := 1750000000000 }
            seedStore.events)) },
       .added (seedEvent1.comments ++
          [{ author := jsTrim " Ann ", text := jsTrim "Hi", date := 1750000000000 }])) ∧
    renderCommentsView (seedEvent1.comments ++
        [{ author := jsTrim " Ann ", text := jsTrim "Hi", date := 1750000000000 }]) =
      { author := jsTrim " Ann ", text := jsTrim "Hi", date := 1750000000000 } ::
        renderCommentsView seedEvent1.comments := by
  have hblankA := addComment_validates_appends_and_renders_first seedStore "1" "   " "Hi"
    1750000000000 seedEvent1 rfl (by decide)
  have hblankT := addComment_validates_appends_and_renders_first seedStore "1" "Ann" ""
    1750000000000 seedEvent1 rfl (by decide)
  have hok := addComment_validates_appends_and_renders_first seedStore "1" " Ann " "Hi"
    1750000000000 seedEvent1 rfl (by decide)
  have h2 := hok.2 (by decide) (by decide)
  exact ⟨⟨rfl, by decide, by decide⟩, hblankA.1 (Or.inl (by decide)),
    hblankT.1 (Or.inr (by decide)), h2.1, h2.2.2⟩

/-- C4: `createErrors` reports one validation error per invalid field, every
field being checked (the handler's `forEach` never stops early): a title of
trimmed length 4 fails on `title` while trimmed length 5 passes (boundary at
minLength 5) and length 101 fails the maxLength-100 rule; a description of
trimmed length 19 fails the minLength-20 rule; blank date and category fail
the required rule; and a form with four invalid fields reports all four at
once. -/
theorem createEvent_validation_boundaries :
    createErrors { validForm with title := "  abcd  " } =
      [("title", "Debe tener al menos 5 caracteres.")] ∧
    createErrors { validForm with title := "abcde" } = [] ∧
    (submitCreateEvent { validForm with title := "abcde" } 0 "r0" seedStore).2 =
      .ok { id := "event-0-r0",
            title := "abcde",
            description := "Una feria con demostraciones de ciencia para todas las edades.",
            imageUrl := "public/images/event-placeholder.jpg",
            votes := 0,
            category := "tecnologia",
            date := "2025-11-20",
            comments := [] } ∧
    createErrors { validForm with title := String.mk (List.replicate 101 'a') } =
      [("title", "No debe exceder 100 caracteres.")] ∧
    createErrors { validForm with description := "Exactamente19chars!" } =
      [("description", "Debe tener al menos 20 caracteres.")] ∧
    createErrors { validForm with date := "   " } =
      [("date", "Este campo es obligatorio.")] ∧
    createErrors { validForm with category := "" } =
      [("category", "Este campo es obligatorio.")] ∧
    createErrors { title := "abcd", description := "corta", date := "",
                   imageUrl := "", category := "" } =
      [("title", "Debe tener al menos 5 caracteres."),
       ("description", "Debe tener al menos 20 caracteres."),
       ("date", "Este campo es obligatorio."),
       ("category", "Este campo es obligatorio.")] := by
  refine ⟨?_, ?_, ?_, ?_, ?_, ?_, ?_, ?_⟩ <;> rfl

/-- C5: when every field passes validation, the submit handler appends to the
collection a fresh event whose id is `event-<now>-<rand>`, whose `imageUrl`
falls back to the placeholder path when blank, whose votes and comments start
at 0 and `[]`, persists the collection, and surfaces the new event. -/
theorem createEvent_success_appends_and_persists
    (f : CreateForm) (now : Nat) (rand : String) (s : Store)
    (h : createErrors f = []) :
    ∃ ev : Event,
      submitCreateEvent f now rand s =
        ({ events := s.events ++ [ev],
           storage := some (encodeEvents (s.events ++ [ev])) }, .ok ev) ∧
      ev.id = s!"event-{now}-{rand}" ∧
      ev.votes = 0 ∧
      ev.comments = [] ∧
      ev.title = jsTrim f.title ∧
      ev.description = jsTrim f.description ∧
      ev.category = jsTrim f.category ∧
      ev.date = jsTrim f.date ∧
      ev.imageUrl = (if jsTrim f.imageUrl = "" then "public/images/event-placeholder.jpg"
                     else jsTrim f.imageUrl) := by
  refine ⟨{ id := s!"event-{now}-{rand}",
            title := jsTrim f.title,
            description := jsTrim f.description,
            imageUrl := if jsTrim f.imageUrl == "" then "public/images/event-placeholder.jpg"
                        else jsTrim f.imageUrl,
            votes := 0,
            category := jsTrim f.category,
            date := jsTrim f.date,
            comments := [] }, ?_, rfl, rfl, rfl, rfl, rfl, rfl, rfl, ?_⟩
  · simp [submitCreateEvent, h]
  · by_cases hi : jsTrim f.imageUrl = "" <;> simp [hi]

/-- Witness for C5 at a concrete input: submitting `validForm` at instant 5
with random fragment "r" appends exactly `sampleCreated` and persists. -/
theorem createEvent_success_appends_and_persists_witness :
    createErrors validForm = [] ∧
    submitCreateEvent validForm 5 "r" seedStore =
      ({ events := seedStore.events ++ [sampleCreated],
         storage := some (encodeEvents (seedStore.events ++ [sampleCreated])) },
       .ok sampleCreated) ∧
    sampleCreated.votes = 0 ∧ sampleCreated.comments = [] ∧
    sampleCreated.imageUrl = "public/images/event-placeholder.jpg" := by
  obtain ⟨ev, h1, h2, h3, h4, h5, h6, h7, h8, h9⟩ :=
    createEvent_success_appends_and_persists validForm 5 "r" seedStore rfl
  have h0 : (submitCreateEvent validForm 5 "r" seedStore).2 = .ok sampleCreated := rfl
  rw [h1] at h0
  have hev : ev = sampleCreated := Except.ok.inj h0
  subst hev
  exact ⟨rfl, h1, h3, h4, rfl⟩

/-- C6: the ranking view is the collection ordered by votes descending,
computed on a copy (the store is returned unchanged): over the seed events,
whose votes are [120, 85, 95, 60, 75], it yields the order
[120, 95, 85, 75, 60]; in general it is a permutation, sorted non-increasing
by votes, and stable (the subsequence with any fixed vote count keeps its
insertion order). -/
theorem ranking_sorts_by_votes_descending_without_mutation :
    (initialEvents.map Event.votes = [120, 85, 95, 60, 75] ∧
     (rankedSort initialEvents).map Event.votes = [120, 95, 85, 75, 60]) ∧
    (∀ s : Store, loadRanking s = (s, rankedSort s.events)) ∧
    (∀ l : List Event,
      (rankedSort l).Pairwise (fun a b => b.votes ≤ a.votes) ∧
      List.Perm l (rankedSort l) ∧
      ∀ v : Nat, (rankedSort l).filter (fun x => x.votes == v) =
        l.filter (fun x => x.votes == v)) :=
  ⟨⟨rfl, rfl⟩, fun _ => rfl,
   fun l => ⟨pairwise_rankedSort l, perm_rankedSort l, fun v => filter_rankedSort l v⟩⟩

/-- C7: persist-then-reload round-trip.  Decoding the serialized collection
is the identity (`JSON.parse` after `JSON.stringify`), and after a
successful event creation, hydrating a fresh store from the persisted mirror
reproduces the pre-reload in-memory collection exactly. -/
theorem persist_reload_roundtrip
    (f : CreateForm) (now : Nat) (rand : String) (s s' : Store) (ev : Event)
    (h : submitCreateEvent f now rand s = (s', .ok ev)) :
    (∀ es : List Event, decodeEvents (encodeEvents es) = some es) ∧
    hydrate s'.storage = some { events := s'.events, storage := s'.storage } := by
  refine ⟨decodeEvents_encodeEvents, ?_⟩
  cases he : createErrors f with
  | cons p ps =>
      rw [submitCreateEvent, he] at h
      simp at h
  | nil =>
      rw [submitCreateEvent, he] at h
      obtain ⟨hs, hev⟩ := Prod.mk.injEq .. ▸ h
      subst hs
      simp [hydrate, decodeEvents_encodeEvents]

/-- Witness for C7 at a concrete input: creating from `validForm` on the
seeded store persists, and hydrating from that mirror returns exactly the
pre-reload collection. -/
theorem persist_reload_roundtrip_witness :
    submitCreateEvent validForm 5 "r" seedStore =
      ({ events := initialEvents ++ [sampleCreated],
         storage := some (encodeEvents (initialEvents ++ [sampleCreated])) },
       .ok sampleCreated) ∧
    hydrate (some (encodeEvents (initialEvents ++ [sampleCreated]))) =
      some { events := initialEvents ++ [sampleCreated],
             storage := some (encodeEvents (initialEvents ++ [sampleCreated])) } := by
  have hsub : submitCreateEvent validForm 5 "r" seedStore =
      ({ events := initialEvents ++ [sampleCreated],
         storage := some (encodeEvents (initialEvents ++ [sampleCreated])) },
       .ok sampleCreated) := rfl
  have h := persist_reload_roundtrip validForm 5 "r" seedStore _ sampleCreated hsub
  exact ⟨hsub, h.2⟩

/-- C8: in a collection with pairwise-distinct ids, looking up any present
event's id returns that event itself (first match of the linear scan), and
looking up an id carried by no event returns the not-found signal. -/
theorem findByID_identity_roundtrip
    (es : List Event) (E : Event) (missingId : String)
    (h1 : (es.map Event.id).Nodup) (h2 : E ∈ es)
    (h3 : ∀ e ∈ es, e.id ≠ missingId) :
    findByID E.id es = some E ∧ findByID missingId es = none :=
  ⟨findByID_of_mem es E h1 h2, findByID_eq_none es missingId h3⟩

/-- Witness for C8 at a concrete input: seed event "3" is found as itself and
"nonexistent-id" is not found. -/
theorem findByID_identity_roundtrip_witness :
    ((initialEvents.map Event.id).Nodup ∧ seedEvent3 ∈ initialEvents ∧
      ∀ e ∈ initialEvents, e.id ≠ "nonexistent-id") ∧
    findByID seedEvent3.id initialEvents = some seedEvent3 ∧
    findByID "nonexistent-id" initialEvents = none := by
  have h := findByID_identity_roundtrip initialEvents seedEvent3 "nonexistent-id"
    (by decide) (by decide) (by decide)
  exact ⟨⟨by decide, by decide, by decide⟩, h.1, h.2⟩

/-- C9: a vote on an id that matches no event is a no-op — the handler's
`if (event)` guard fails, so the in-memory collection and the persisted
mirror are returned exactly unchanged and nothing is surfaced to the caller
(there is no error path in `handleVote`). -/
theorem vote_on_missing_id_is_noop (s : Store) (eventId : String)
    (h : ∀ e ∈ s.events, e.id ≠ eventId) :
    handleVote eventId s = (s, none) := by
  simp [handleVote, findByID_eq_none s.events eventId h]

/-- Witness for C9 at a concrete input: voting for "id-42" on the seeded
store leaves it untouched. -/
theorem vote_on_missing_id_is_noop_witness :
    (∀ e ∈ seedStore.events, e.id ≠ "id-42") ∧
    handleVote "id-42" seedStore = (seedStore, none) :=
  ⟨by decide, vote_on_missing_id_is_noop seedStore "id-42" (by decide)⟩

/-- C10 counterexample: the claim says `Vote("nonexistent-id")` fails with a
NotFound error rather than mutating nothing silently.  On the code it is
false: `handleVote` has no error channel at all (its only outputs are the
updated store and the surfaced count), and on the seeded store the concrete
call returns the store bit-for-bit unchanged with nothing surfaced — exactly
the silent non-mutation the claim rules out. -/
theorem vote_unknown_id_silent_counterexample :
    handleVote "nonexistent-id" seedStore = (seedStore, none) := rfl

/-- C10 amended: `Vote` on an id absent from the collection silently does
nothing — collection and mirror unchanged, no NotFound error surfaced — and
a comment on an unknown id never reaches the append: the detail view renders
the "Evento no encontrado" message instead of the comment form, leaving the
store unchanged. -/
theorem unknown_id_vote_noop_comment_notfound_view
    (s : Store) (eventId author text : String) (now : Nat)
    (h : ∀ e ∈ s.events, e.id ≠ eventId) :
    handleVote eventId s = (s, none) ∧
    addComment eventId author text now s = (s, .notFoundView) := by
  have hf := findByID_eq_none s.events eventId h
  constructor
  · simp [handleVote, hf]
  · simp [addComment, hf]

/-- Witness for the amended C10 at a concrete input. -/
theorem unknown_id_vote_noop_comment_notfound_view_witness :
    (∀ e ∈ seedStore.events, e.id ≠ "no-such-event") ∧
    handleVote "no-such-event" seedStore = (seedStore, none) ∧
    addComment "no-such-event" "Ann" "Hola" 7 seedStore = (seedStore, .notFoundView) := by
  have h := unknown_id_vote_noop_comment_notfound_view seedStore "no-such-event"
    "Ann" "Hola" 7 (by decide)
  exact ⟨by decide, h.1, h.2⟩

end Eventfloww
